import Mathlib

/-!
Verification of the Monte Carlo portfolio simulation engine of
`app/portfolio_optimizer.py` (class `PortfolioOptimizer`).

Modelling conventions:
* Python floats are modelled as exact rationals (`ℚ`).
* `np.log` and `np.sqrt` are elementwise transcendental functions; they are
  taken as parameters (`log`, `sqrt` : `ℚ → ℚ`) of the development, so every
  theorem quantifies over them and holds in particular for the real functions.
* NumPy's global Mersenne-Twister generator is modelled by a parameter
  `mt : ℕ → ℕ → ℚ`: `mt s p` is the `p`-th value of `np.random.uniform`
  after `np.random.seed(s)`.  The global RNG state is the pair
  (current seed, position) (`NpRng`); `np.random.uniform(size=k)` reads the
  next `k` positions of the stream of the current seed.
* A pandas `DataFrame` of prices is modelled by its list of columns
  (one price series per asset): `PriceData`.
* Raising `PortfolioOptimizerError` is modelled with `Except`.
-/

namespace FlaskBokehMPT

/-- The price `DataFrame`: one column (price series) per asset.
`price_data` in the source. -/
structure PriceData where
  cols : List (List ℚ)
deriving DecidableEq

/-- Number of rows (dates) of the frame: the length of the first column. -/
def PriceData.nrows (pd : PriceData) : ℕ := (pd.cols.headD []).length

/-- Model of pandas `DataFrame.empty`: some axis has length 0. -/
def PriceData.isEmptyDf (pd : PriceData) : Bool :=
  pd.cols.isEmpty || (pd.cols.headD []).isEmpty

/-- Well-formedness of the frame: all columns have the same length. -/
def PriceData.Wf (pd : PriceData) : Prop :=
  ∀ c ∈ pd.cols, c.length = pd.nrows

instance (pd : PriceData) : Decidable pd.Wf := by
  unfold PriceData.Wf; infer_instance

/-- The only exception class of the module, `PortfolioOptimizerError`.
The two constructors stand for the two distinct raise sites reachable with
well-typed input: the price-data check in `run_simulation` (line 80) and the
results-not-populated check in `get_metrics_df` (line 123). -/
inductive PortfolioOptimizerError where
  | invalidPriceData
  | simulationNotRun
deriving DecidableEq

/-- State of NumPy's global random generator: the seed it was last seeded
with, and the position reached in that seed's stream. -/
structure NpRng where
  seed : ℕ
  pos : ℕ
deriving DecidableEq

/-- The result dict stored into `self.results` by `run_simulation`:
arrays `weights`, `returns`, `risk`, `sharpe_ratio` (the last renamed
`sharpe` here). -/
structure SimResult where
  weights : List (List ℚ)
  returns : List ℚ
  risk : List ℚ
  sharpe : List ℚ
deriving DecidableEq

/-- The mutable fields of a `PortfolioOptimizer` instance (the logger is
omitted: it never influences results). `price_data : Option PriceData`
models that the constructor accepts `None`. -/
structure PortfolioOptimizer where
  price_data : Option PriceData
  num_portfolios : ℕ
  risk_free_rate : ℚ
  results : Option SimResult
deriving DecidableEq

/-- Mean of a pandas Series, as used on the log-return columns:  pandas
skips the NaN produced by `shift(1)` at the first date, so the series
handed to `mean` is the list of the `T−1` actual returns. -/
def meanQ (l : List ℚ) : ℚ := l.sum / (l.length : ℚ)

/-- One column of `log_ret = np.log(price_data / price_data.shift(1))`,
keeping only the non-NaN entries: the entry for date `t ≥ 1` is
`log (price[t] / price[t-1])`.  `zip c.tail c` pairs each price with its
predecessor. -/
def log_ret_col (log : ℚ → ℚ) (c : List ℚ) : List ℚ :=
  (c.tail.zip c).map fun p => log (p.1 / p.2)

/-- One entry of `log_ret.cov()` (pandas `DataFrame.cov`, default
`ddof = 1`): sum of products of deviations from the column means over the
complete pairs, divided by (number of pairs − 1). -/
def cov_pair (x y : List ℚ) : ℚ :=
  (((x.zip y).map fun p => (p.1 - meanQ x) * (p.2 - meanQ y)).sum) /
    (((x.zip y).length : ℚ) - 1)

/-- Line 83, `cov_matrix = log_ret.cov() * 252`, as a list of rows. -/
def cov_matrix (log : ℚ → ℚ) (pd : PriceData) : List (List ℚ) :=
  pd.cols.map fun x => pd.cols.map fun y =>
    cov_pair (log_ret_col log x) (log_ret_col log y) * 252

/-- Elementwise product summed: `np.sum(a * b)` for two aligned vectors. -/
def dotQ (x y : List ℚ) : ℚ := ((x.zip y).map fun p => p.1 * p.2).sum

/-- Model of `log_ret.mean()`: the per-asset means of the daily log
returns. -/
def ret_means (log : ℚ → ℚ) (pd : PriceData) : List ℚ :=
  pd.cols.map fun c => meanQ (log_ret_col log c)

/-- Quadratic form `np.dot(wts.T, np.dot(cov_matrix, wts))` =
`wᵀ · M · w`. -/
def quad_form (m : List (List ℚ)) (w : List ℚ) : ℚ :=
  dotQ w (m.map fun row => dotQ row w)

/-- The uniform draws of loop iteration `i` (line 90,
`np.random.uniform(size=num_assets)`): iteration `i` reads positions
`i*nA .. i*nA + nA − 1` of the stream seeded with 42 at line 88. -/
def draws (mt : ℕ → ℕ → ℚ) (nA i : ℕ) : List ℚ :=
  (List.range nA).map fun j => mt 42 (i * nA + j)

/-- Line 91, `wts = wts / np.sum(wts)`. -/
def normalize (u : List ℚ) : List ℚ := u.map fun x => x / u.sum

/-- The weight vector of portfolio `i`. -/
def port_wts (mt : ℕ → ℕ → ℚ) (nA i : ℕ) : List ℚ := normalize (draws mt nA i)

/-- Value of `port_ret` for portfolio `i` after line 94:
`(np.sum(log_ret.mean() * wts) + 1) ** 252 - 1`. -/
def port_ret (log : ℚ → ℚ) (mt : ℕ → ℕ → ℚ) (pd : PriceData) (i : ℕ) : ℚ :=
  (dotQ (ret_means log pd) (port_wts mt pd.cols.length i) + 1) ^ 252 - 1

/-- Value of `port_sd` for portfolio `i` (line 96). -/
def port_sd (log sqrt : ℚ → ℚ) (mt : ℕ → ℕ → ℚ) (pd : PriceData) (i : ℕ) : ℚ :=
  sqrt (quad_form (cov_matrix log pd) (port_wts mt pd.cols.length i))

/-- Value of `sr` for portfolio `i` (line 98):
`(port_ret - risk_free_rate) / port_sd if port_sd > 0 else 0.0`. -/
def sharpe_of (log sqrt : ℚ → ℚ) (mt : ℕ → ℕ → ℚ) (pd : PriceData)
    (rf : ℚ) (i : ℕ) : ℚ :=
  if port_sd log sqrt mt pd i > 0 then
    (port_ret log mt pd i - rf) / port_sd log sqrt mt pd i
  else 0

/-- The arrays accumulated by the loop of lines 89–99. -/
def sim_table (log sqrt : ℚ → ℚ) (mt : ℕ → ℕ → ℚ) (pd : PriceData)
    (n : ℕ) (rf : ℚ) : SimResult where
  weights := (List.range n).map fun i => port_wts mt pd.cols.length i
  returns := (List.range n).map fun i => port_ret log mt pd i
  risk := (List.range n).map fun i => port_sd log sqrt mt pd i
  sharpe := (List.range n).map fun i => sharpe_of log sqrt mt pd rf i

/-- Method `run_simulation` (lines 68–110).  The incoming global RNG state is an
explicit argument; `np.random.seed(42)` (line 88) replaces it before any
draw, and the loop then consumes `num_portfolios * num_assets` values.
The returned triple is (raised exception or returned results dict,
the instance after the call, the global RNG state after the call).
The broad `except` clause only rewraps the message of the explicit raise at
line 80, keeping the exception class, so it is not modelled separately. -/
def run_simulation (log sqrt : ℚ → ℚ) (mt : ℕ → ℕ → ℚ)
    (o : PortfolioOptimizer) (rng : NpRng) :
    Except PortfolioOptimizerError SimResult × PortfolioOptimizer × NpRng :=
  match o.price_data with
  | none => (.error .invalidPriceData, o, rng)
  | some pd =>
    if pd.isEmptyDf then (.error .invalidPriceData, o, rng)
    else
      let res := sim_table log sqrt mt pd o.num_portfolios o.risk_free_rate
      (.ok res, { o with results := some res },
        ⟨42, o.num_portfolios * pd.cols.length⟩)

/-- Maximum of a nonempty list (`0` for `[]`), the value pandas `idxmax`
locates the first occurrence of. -/
def maxQ : List ℚ → ℚ
  | [] => 0
  | x :: xs => xs.foldl max x

/-- Minimum of a nonempty list (`0` for `[]`). -/
def minQ : List ℚ → ℚ
  | [] => 0
  | x :: xs => xs.foldl min x

/-- Index of the first element satisfying `p` (length of the list when
none does). -/
def firstIdx (p : ℚ → Bool) : List ℚ → ℕ
  | [] => 0
  | x :: xs => if p x then 0 else firstIdx p xs + 1

/-- Model of `Series.idxmax` on a default `RangeIndex`: position of the
first occurrence of the maximum. -/
def idxmaxQ (l : List ℚ) : ℕ := firstIdx (fun x => decide (x = maxQ l)) l

/-- Model of `Series.idxmin` on a default `RangeIndex`: position of the
first occurrence of the minimum. -/
def idxminQ (l : List ℚ) : ℕ := firstIdx (fun x => decide (x = minQ l)) l

/-- One row of the metrics `DataFrame` (`df.loc[i].to_dict()`):
`Return`, `Risk`, `Sharpe` and the weight entries. -/
structure PRow where
  ret : ℚ
  risk : ℚ
  sharpe : ℚ
  w : List ℚ
deriving DecidableEq

/-- Row `i` of the `DataFrame` built by `get_metrics_df` (line 126: the
columns `Return`, `Risk`, `Sharpe` are the three result arrays and the
remaining columns are the weight matrix). -/
def SimResult.row (r : SimResult) (i : ℕ) : PRow :=
  ⟨r.returns.getD i 0, r.risk.getD i 0, r.sharpe.getD i 0, r.weights.getD i []⟩

/-- The rows of the metrics frame, in order. -/
def SimResult.rows (r : SimResult) : List PRow :=
  (List.range r.returns.length).map r.row

/-- Method `get_metrics_df` (lines 112–136): raises when `self.results is None`,
otherwise returns the frame whose columns are exactly the four result
arrays.  No instance field is assigned, so the state is returned
unchanged. -/
def get_metrics_df (o : PortfolioOptimizer) :
    Except PortfolioOptimizerError SimResult × PortfolioOptimizer :=
  match o.results with
  | none => (.error .simulationNotRun, o)
  | some res => (.ok res, o)

/-- The dict returned by `get_optimal_portfolios`. -/
structure OptimalSet where
  max_sharpe : PRow
  min_variance : PRow
  max_return : PRow
deriving DecidableEq

/-- Method `get_optimal_portfolios` (lines 138–158): builds the metrics frame,
then takes `df.loc[df['Sharpe'].idxmax()]`, `df.loc[df['Risk'].idxmin()]`
and `df.loc[df['Return'].idxmax()]`.  An exception from `get_metrics_df`
is rewrapped with the same class (lines 156–158). -/
def get_optimal_portfolios (o : PortfolioOptimizer) :
    Except PortfolioOptimizerError OptimalSet × PortfolioOptimizer :=
  match get_metrics_df o with
  | (.error e, o2) => (.error e, o2)
  | (.ok df, o2) =>
    (.ok ⟨df.row (idxmaxQ df.sharpe), df.row (idxminQ df.risk),
          df.row (idxmaxQ df.returns)⟩, o2)

/-- Method `get_visualization_data` (lines 160–179): calls `get_metrics_df`, then
`get_optimal_portfolios`, then copies `self.results` (or `None`). -/
def get_visualization_data (o : PortfolioOptimizer) :
    Except PortfolioOptimizerError (SimResult × OptimalSet × Option SimResult)
      × PortfolioOptimizer :=
  match get_metrics_df o with
  | (.error e, o2) => (.error e, o2)
  | (.ok df, o2) =>
    match get_optimal_portfolios o2 with
    | (.error e, o3) => (.error e, o3)
    | (.ok opt, o3) => (.ok (df, opt, o3.results), o3)

/-! ### Claim-side formulas, transcribed from the specification text -/

/-- Claim side (C1): the per-asset mean daily log return, the average over
`t ≥ 1` of `ln(price[t] / price[t-1])` (the first date contributes no
return, so the average has `T − 1` terms). -/
def spec_mean_log_ret (log : ℚ → ℚ) (c : List ℚ) : ℚ :=
  (((List.range (c.length - 1)).map
      fun t => log (c.getD (t + 1) 0 / c.getD t 0)).sum) /
    ((c.length - 1 : ℕ) : ℚ)

/-- Claim side (C1): the value `(mean(dailyLogReturn · w) + 1)^252 − 1` where
`dailyLogReturn` is the vector of per-asset mean daily log returns. -/
def spec_ann_return (log : ℚ → ℚ) (pd : PriceData) (w : List ℚ) : ℚ :=
  (((List.range pd.cols.length).map
      fun a => spec_mean_log_ret log (pd.cols.getD a []) * w.getD a 0).sum
    + 1) ^ 252 - 1

/-- Claim side (C2): the daily log-return series of asset `a`, indexed by
date. -/
def spec_ret_series (log : ℚ → ℚ) (pd : PriceData) (a : ℕ) : List ℚ :=
  (List.range (pd.nrows - 1)).map fun t =>
    log ((pd.cols.getD a []).getD (t + 1) 0 / (pd.cols.getD a []).getD t 0)

/-- Claim side (C2): covariance of the log-return series of assets `a` and
`b` over the `N = nrows − 1` observations with denominator `N − ddof`
(ddof 0 = population covariance, ddof 1 = sample covariance). -/
def spec_cov_ddof (log : ℚ → ℚ) (pd : PriceData) (ddof a b : ℕ) : ℚ :=
  ((List.range (pd.nrows - 1)).map fun t =>
      ((spec_ret_series log pd a).getD t 0 - meanQ (spec_ret_series log pd a)) *
      ((spec_ret_series log pd b).getD t 0 - meanQ (spec_ret_series log pd b))).sum /
    ((pd.nrows - 1 - ddof : ℕ) : ℚ)

/-- Claim side (C2): the annualized covariance matrix with the given
denominator convention, scaled by 252. -/
def spec_cov_matrix (log : ℚ → ℚ) (pd : PriceData) (ddof : ℕ) :
    List (List ℚ) :=
  (List.range pd.cols.length).map fun a =>
    (List.range pd.cols.length).map fun b => spec_cov_ddof log pd ddof a b * 252

/-- Claim side (C2): the form `wᵀ · M · w` for an `n × n` matrix, written
with explicit indices. -/
def spec_quad (m : List (List ℚ)) (w : List ℚ) (n : ℕ) : ℚ :=
  ((List.range n).map fun a =>
    w.getD a 0 *
      ((List.range n).map fun b => (m.getD a []).getD b 0 * w.getD b 0).sum).sum

/-- Claim side (C6), following the spec's interface
`simulate(priceMatrix, numPortfolios, riskFreeRate, seed)`: the same
engine loop, but drawing from the stream of the CALLER-SUPPLIED seed. -/
def spec_simulate (log sqrt : ℚ → ℚ) (mt : ℕ → ℕ → ℚ) (pd : PriceData)
    (n : ℕ) (rf : ℚ) (seed : ℕ) : SimResult :=
  sim_table log sqrt (fun _ p => mt seed p) pd n rf

instance {ε α : Type} [DecidableEq ε] [DecidableEq α] :
    DecidableEq (Except ε α) := fun x y =>
  match x, y with
  | .ok a, .ok b =>
    if h : a = b then .isTrue (by rw [h]) else .isFalse (by simp [h])
  | .error a, .error b =>
    if h : a = b then .isTrue (by rw [h]) else .isFalse (by simp [h])
  | .ok _, .error _ => .isFalse (by simp)
  | .error _, .ok _ => .isFalse (by simp)


/-! ### List helper lemmas -/

lemma getD_of_lt {α : Type} (l : List α) (i : ℕ) (d : α) (h : i < l.length) :
    l.getD i d = l[i] := by
  rw [List.getD_eq_getElem?_getD, List.getElem?_eq_getElem h]; rfl

lemma getD_map_range {α : Type} (f : ℕ → α) (n i : ℕ) (d : α) (hi : i < n) :
    ((List.range n).map f).getD i d = f i := by
  have h : i < ((List.range n).map f).length := by simpa using hi
  rw [getD_of_lt _ _ _ h, List.getElem_map, List.getElem_range]

lemma getD_map_of_lt {α β : Type} (f : α → β) (l : List α) (i : ℕ) (d : β)
    (h : i < l.length) :
    (l.map f).getD i d = f l[i] := by
  have h2 : i < (l.map f).length := by simpa using h
  rw [getD_of_lt _ _ _ h2, List.getElem_map]

lemma le_foldl_max (xs : List ℚ) (a : ℚ) : a ≤ xs.foldl max a := by
  induction xs generalizing a with
  | nil => exact le_refl a
  | cons y ys ih =>
    rw [List.foldl_cons]
    exact le_trans (le_max_left a y) (ih (max a y))

lemma mem_le_foldl_max (xs : List ℚ) (a x : ℚ) (hx : x ∈ xs) :
    x ≤ xs.foldl max a := by
  induction xs generalizing a with
  | nil => cases hx
  | cons y ys ih =>
    rw [List.foldl_cons]
    rcases List.mem_cons.mp hx with rfl | h
    · exact le_trans (le_max_right a x) (le_foldl_max ys _)
    · exact ih _ h

lemma foldl_max_eq_or_mem (xs : List ℚ) (a : ℚ) :
    xs.foldl max a = a ∨ xs.foldl max a ∈ xs := by
  induction xs generalizing a with
  | nil => exact Or.inl rfl
  | cons y ys ih =>
    rw [List.foldl_cons]
    rcases ih (max a y) with h | h
    · rcases max_choice a y with h2 | h2
      · exact Or.inl (h.trans h2)
      · exact Or.inr (by rw [h, h2]; exact List.mem_cons_self y ys)
    · exact Or.inr (List.mem_cons_of_mem y h)

lemma le_maxQ (l : List ℚ) (x : ℚ) (hx : x ∈ l) : x ≤ maxQ l := by
  cases l with
  | nil => cases hx
  | cons y ys =>
    show x ≤ ys.foldl max y
    rcases List.mem_cons.mp hx with rfl | h
    · exact le_foldl_max ys x
    · exact mem_le_foldl_max ys y x h

lemma maxQ_mem (l : List ℚ) (hl : l ≠ []) : maxQ l ∈ l := by
  cases l with
  | nil => exact absurd rfl hl
  | cons y ys =>
    show ys.foldl max y ∈ y :: ys
    rcases foldl_max_eq_or_mem ys y with h | h
    · rw [h]; exact List.mem_cons_self y ys
    · exact List.mem_cons_of_mem y h

lemma foldl_min_le (xs : List ℚ) (a : ℚ) : xs.foldl min a ≤ a := by
  induction xs generalizing a with
  | nil => exact le_refl a
  | cons y ys ih =>
    rw [List.foldl_cons]
    exact le_trans (ih (min a y)) (min_le_left a y)

lemma foldl_min_le_mem (xs : List ℚ) (a x : ℚ) (hx : x ∈ xs) :
    xs.foldl min a ≤ x := by
  induction xs generalizing a with
  | nil => cases hx
  | cons y ys ih =>
    rw [List.foldl_cons]
    rcases List.mem_cons.mp hx with rfl | h
    · exact le_trans (foldl_min_le ys _) (min_le_right a x)
    · exact ih _ h

lemma foldl_min_eq_or_mem (xs : List ℚ) (a : ℚ) :
    xs.foldl min a = a ∨ xs.foldl min a ∈ xs := by
  induction xs generalizing a with
  | nil => exact Or.inl rfl
  | cons y ys ih =>
    rw [List.foldl_cons]
    rcases ih (min a y) with h | h
    · rcases min_choice a y with h2 | h2
      · exact Or.inl (h.trans h2)
      · exact Or.inr (by rw [h, h2]; exact List.mem_cons_self y ys)
    · exact Or.inr (List.mem_cons_of_mem y h)

lemma minQ_le (l : List ℚ) (x : ℚ) (hx : x ∈ l) : minQ l ≤ x := by
  cases l with
  | nil => cases hx
  | cons y ys =>
    show ys.foldl min y ≤ x
    rcases List.mem_cons.mp hx with rfl | h
    · exact foldl_min_le ys x
    · exact foldl_min_le_mem ys y x h

lemma minQ_mem (l : List ℚ) (hl : l ≠ []) : minQ l ∈ l := by
  cases l with
  | nil => exact absurd rfl hl
  | cons y ys =>
    show ys.foldl min y ∈ y :: ys
    rcases foldl_min_eq_or_mem ys y with h | h
    · rw [h]; exact List.mem_cons_self y ys
    · exact List.mem_cons_of_mem y h

lemma firstIdx_lt_length (p : ℚ → Bool) (l : List ℚ)
    (h : ∃ x ∈ l, p x = true) : firstIdx p l < l.length := by
  induction l with
  | nil => simp at h
  | cons y ys ih =>
    by_cases hy : p y = true
    · simp [firstIdx, hy]
    · obtain ⟨x, hx, hpx⟩ := h
      rcases List.mem_cons.mp hx with rfl | hmem
      · exact absurd hpx hy
      · have := ih ⟨x, hmem, hpx⟩
        simp only [firstIdx, List.length_cons]
        rw [if_neg hy]
        omega

lemma firstIdx_getElem (p : ℚ → Bool) (l : List ℚ)
    (h : firstIdx p l < l.length) : p (l[firstIdx p l]) = true := by
  induction l with
  | nil => simp [firstIdx] at h
  | cons y ys ih =>
    by_cases hy : p y = true
    · simp [firstIdx, hy]
    · have he : firstIdx p (y :: ys) = firstIdx p ys + 1 := by
        simp [firstIdx, hy]
      have h2 : firstIdx p ys < ys.length := by
        rw [he] at h; simpa using h
      have := ih h2
      simp only [he, List.getElem_cons_succ]
      exact this

lemma firstIdx_before (p : ℚ → Bool) (l : List ℚ) (j : ℕ)
    (hj : j < firstIdx p l) (hjl : j < l.length) : ¬ p (l[j]) = true := by
  induction l generalizing j with
  | nil => simp at hjl
  | cons y ys ih =>
    by_cases hy : p y = true
    · simp [firstIdx, hy] at hj
    · have he : firstIdx p (y :: ys) = firstIdx p ys + 1 := by
        simp [firstIdx, hy]
      cases j with
      | zero => simpa using hy
      | succ k =>
        rw [List.getElem_cons_succ]
        exact ih k (by omega) (by simpa using hjl)

lemma idxmaxQ_lt_length (l : List ℚ) (hl : l ≠ []) : idxmaxQ l < l.length :=
  firstIdx_lt_length _ _ ⟨maxQ l, maxQ_mem l hl, by simp⟩

lemma getElem_idxmaxQ (l : List ℚ) (h : idxmaxQ l < l.length) :
    l[idxmaxQ l] = maxQ l := by
  have := firstIdx_getElem (fun x => decide (x = maxQ l)) l h
  simpa [idxmaxQ] using this

lemma idxmaxQ_ge (l : List ℚ) (j : ℕ) (hj : j < l.length)
    (h : idxmaxQ l < l.length) : l[j] ≤ l[idxmaxQ l] := by
  rw [getElem_idxmaxQ l h]
  exact le_maxQ l _ (l.getElem_mem hj)

lemma idxmaxQ_first (l : List ℚ) (j : ℕ) (hj : j < l.length)
    (h : idxmaxQ l < l.length) (he : l[j] = l[idxmaxQ l]) :
    idxmaxQ l ≤ j := by
  by_contra hlt
  have hb := firstIdx_before (fun x => decide (x = maxQ l)) l j
    (Nat.not_le.mp hlt) hj
  rw [he, getElem_idxmaxQ l h] at hb
  simp at hb

lemma idxminQ_lt_length (l : List ℚ) (hl : l ≠ []) : idxminQ l < l.length :=
  firstIdx_lt_length _ _ ⟨minQ l, minQ_mem l hl, by simp⟩

lemma getElem_idxminQ (l : List ℚ) (h : idxminQ l < l.length) :
    l[idxminQ l] = minQ l := by
  have := firstIdx_getElem (fun x => decide (x = minQ l)) l h
  simpa [idxminQ] using this

lemma idxminQ_le (l : List ℚ) (j : ℕ) (hj : j < l.length)
    (h : idxminQ l < l.length) : l[idxminQ l] ≤ l[j] := by
  rw [getElem_idxminQ l h]
  exact minQ_le l _ (l.getElem_mem hj)

lemma idxminQ_first (l : List ℚ) (j : ℕ) (hj : j < l.length)
    (h : idxminQ l < l.length) (he : l[j] = l[idxminQ l]) :
    idxminQ l ≤ j := by
  by_contra hlt
  have hb := firstIdx_before (fun x => decide (x = minQ l)) l j
    (Nat.not_le.mp hlt) hj
  rw [he, getElem_idxminQ l h] at hb
  simp at hb

/-! ### Bridge lemmas between the code-side (zip) and index-side views -/

lemma length_log_ret_col (log : ℚ → ℚ) (c : List ℚ) :
    (log_ret_col log c).length = c.length - 1 := by
  simp [log_ret_col, List.length_zip, List.length_tail]

lemma getElem_log_ret_col (log : ℚ → ℚ) (c : List ℚ) (t : ℕ)
    (h : t < (log_ret_col log c).length) :
    (log_ret_col log c)[t] = log (c.getD (t + 1) 0 / c.getD t 0) := by
  have hlen : (log_ret_col log c).length = c.length - 1 :=
    length_log_ret_col log c
  have ht1 : t + 1 < c.length := by omega
  have ht : t < c.length := by omega
  have htt : t < c.tail.length := by simp [List.length_tail]; omega
  simp only [log_ret_col, List.getElem_map, List.getElem_zip,
    List.getElem_tail]
  rw [getD_of_lt c (t + 1) 0 ht1, getD_of_lt c t 0 ht]

/-- Rewriting `log_ret_col` with explicit date indices: entry `t` (0-based in
the return series, date `t+1` in the price series) is
`log (price[t+1] / price[t])`. -/
lemma log_ret_col_eq_range (log : ℚ → ℚ) (c : List ℚ) :
    log_ret_col log c =
      (List.range (c.length - 1)).map
        fun t => log (c.getD (t + 1) 0 / c.getD t 0) := by
  apply List.ext_getElem
  · simp [length_log_ret_col]
  · intro t h1 h2
    rw [getElem_log_ret_col log c t h1, List.getElem_map, List.getElem_range]

lemma dotQ_eq_range (x y : List ℚ) (h : y.length = x.length) :
    dotQ x y =
      ((List.range x.length).map fun a => x.getD a 0 * y.getD a 0).sum := by
  unfold dotQ
  congr 1
  apply List.ext_getElem
  · simp [List.length_zip, h]
  · intro a h1 h2
    have hx : a < x.length := by simpa using h2
    have hy : a < y.length := by omega
    simp only [List.getElem_map, List.getElem_zip, List.getElem_range]
    rw [getD_of_lt x a 0 hx, getD_of_lt y a 0 hy]

/-- Inverting a successful `run_simulation` call: the returned dict is the
simulated table, the new instance stores it, and the global RNG was left
at position `num_portfolios * num_assets` of seed 42's stream. -/
lemma run_simulation_ok (log sqrt : ℚ → ℚ) (mt : ℕ → ℕ → ℚ)
    (o : PortfolioOptimizer) (rng : NpRng) (pd : PriceData) (res : SimResult)
    (o2 : PortfolioOptimizer) (rng2 : NpRng)
    (hpd : o.price_data = some pd)
    (hrun : run_simulation log sqrt mt o rng = (.ok res, o2, rng2)) :
    res = sim_table log sqrt mt pd o.num_portfolios o.risk_free_rate ∧
      o2 = { o with results := some res } ∧
      rng2 = ⟨42, o.num_portfolios * pd.cols.length⟩ := by
  unfold run_simulation at hrun
  rw [hpd] at hrun
  dsimp only at hrun
  by_cases h : pd.isEmptyDf
  · rw [if_pos h] at hrun
    simp at hrun
  · rw [if_neg h] at hrun
    simp only [Prod.mk.injEq, Except.ok.injEq] at hrun
    obtain ⟨h1, h2, h3⟩ := hrun
    subst h1
    refine ⟨rfl, ?_, h3.symm⟩
    rw [← h2, hpd]

lemma meanQ_log_ret_col (log : ℚ → ℚ) (c : List ℚ) :
    meanQ (log_ret_col log c) = spec_mean_log_ret log c := by
  unfold meanQ spec_mean_log_ret
  rw [log_ret_col_eq_range]
  congr 1
  simp

lemma length_port_wts (mt : ℕ → ℕ → ℚ) (nA i : ℕ) :
    (port_wts mt nA i).length = nA := by
  simp [port_wts, normalize, draws]

/-- C1: for every simulated portfolio, the recorded annualized return is
`(mean(dailyLogReturn · w) + 1)^252 − 1`, where `w` is the recorded weight
vector of that portfolio and `dailyLogReturn` is the vector of per-asset
mean daily log returns `ln(price[t]/price[t-1])` averaged over `t ≥ 1`. -/
theorem returns_eq_spec_formula (log sqrt : ℚ → ℚ) (mt : ℕ → ℕ → ℚ)
    (o : PortfolioOptimizer) (rng : NpRng) (pd : PriceData) (res : SimResult)
    (o2 : PortfolioOptimizer) (rng2 : NpRng) (i : ℕ)
    (hpd : o.price_data = some pd)
    (hrun : run_simulation log sqrt mt o rng = (.ok res, o2, rng2))
    (hi : i < o.num_portfolios) :
    res.returns.getD i 0 = spec_ann_return log pd (res.weights.getD i []) := by
  obtain ⟨hres, -, -⟩ := run_simulation_ok log sqrt mt o rng pd res o2 rng2 hpd hrun
  subst hres
  simp only [sim_table]
  rw [getD_map_range _ _ _ _ hi, getD_map_range _ _ _ _ hi]
  unfold port_ret spec_ann_return
  have hlen : (ret_means log pd).length = pd.cols.length := by simp [ret_means]
  have key : dotQ (ret_means log pd) (port_wts mt pd.cols.length i) =
      ((List.range pd.cols.length).map fun a =>
        spec_mean_log_ret log (pd.cols.getD a []) *
          (port_wts mt pd.cols.length i).getD a 0).sum := by
    rw [dotQ_eq_range (ret_means log pd) (port_wts mt pd.cols.length i)
      (by rw [length_port_wts, hlen])]
    rw [hlen]
    apply congrArg List.sum
    apply List.map_congr_left
    intro a ha
    rw [List.mem_range] at ha
    simp only [ret_means]
    rw [getD_map_of_lt _ _ _ _ ha, meanQ_log_ret_col, getD_of_lt _ _ _ ha]
  rw [key]

/-- Witness for C1 at a concrete two-asset, two-date frame. -/
theorem returns_eq_spec_formula_witness :
    (sim_table (fun x => x) (fun x => x) (fun _ _ => (1 : ℚ)/2)
        ⟨[[1, 2], [1, 3]]⟩ 1 0).returns.getD 0 0 =
      spec_ann_return (fun x => x) ⟨[[1, 2], [1, 3]]⟩
        ((sim_table (fun x => x) (fun x => x) (fun _ _ => (1 : ℚ)/2)
          ⟨[[1, 2], [1, 3]]⟩ 1 0).weights.getD 0 []) :=
  returns_eq_spec_formula (fun x => x) (fun x => x) (fun _ _ => (1 : ℚ)/2)
    ⟨some ⟨[[1, 2], [1, 3]]⟩, 1, 0, none⟩ ⟨0, 0⟩ ⟨[[1, 2], [1, 3]]⟩ _ _ _ 0
    rfl rfl (by decide)

lemma zip_map_sum_eq_range (f : ℚ × ℚ → ℚ) (x y : List ℚ) (n : ℕ)
    (hx : x.length = n) (hy : y.length = n) :
    ((x.zip y).map f).sum =
      ((List.range n).map fun t => f (x.getD t 0, y.getD t 0)).sum := by
  apply congrArg List.sum
  apply List.ext_getElem
  · simp [List.length_zip, hx, hy]
  · intro t h1 h2
    have hxt : t < x.length := by
      simp only [List.length_map, List.length_zip, hx, hy] at h1
      omega
    have hyt : t < y.length := by omega
    simp only [List.getElem_map, List.getElem_zip, List.getElem_range]
    rw [getD_of_lt x t 0 hxt, getD_of_lt y t 0 hyt]

lemma spec_ret_series_eq (log : ℚ → ℚ) (pd : PriceData) (a : ℕ)
    (ha : a < pd.cols.length) (hwf : pd.Wf) :
    spec_ret_series log pd a = log_ret_col log (pd.cols[a]) := by
  unfold spec_ret_series
  rw [log_ret_col_eq_range, getD_of_lt _ _ _ ha,
    hwf (pd.cols[a]) (pd.cols.getElem_mem ha)]

lemma cov_pair_eq_spec (log : ℚ → ℚ) (pd : PriceData) (a b : ℕ)
    (ha : a < pd.cols.length) (hb : b < pd.cols.length)
    (hwf : pd.Wf) (hn : 2 ≤ pd.nrows) :
    cov_pair (log_ret_col log (pd.cols[a])) (log_ret_col log (pd.cols[b])) =
      spec_cov_ddof log pd 1 a b := by
  have hla : (log_ret_col log (pd.cols[a])).length = pd.nrows - 1 := by
    rw [length_log_ret_col, hwf (pd.cols[a]) (pd.cols.getElem_mem ha)]
  have hlb : (log_ret_col log (pd.cols[b])).length = pd.nrows - 1 := by
    rw [length_log_ret_col, hwf (pd.cols[b]) (pd.cols.getElem_mem hb)]
  unfold cov_pair spec_cov_ddof
  rw [spec_ret_series_eq log pd a ha hwf, spec_ret_series_eq log pd b hb hwf]
  rw [zip_map_sum_eq_range _ _ _ (pd.nrows - 1) hla hlb]
  congr 1
  rw [List.length_zip, hla, hlb]
  rw [Nat.cast_sub (by omega : 1 ≤ pd.nrows - 1)]
  simp [min_self]

lemma cov_matrix_eq_spec (log : ℚ → ℚ) (pd : PriceData)
    (hwf : pd.Wf) (hn : 2 ≤ pd.nrows) :
    cov_matrix log pd = spec_cov_matrix log pd 1 := by
  unfold cov_matrix spec_cov_matrix
  apply List.ext_getElem
  · simp
  · intro a h1 h2
    have ha : a < pd.cols.length := by simpa using h1
    simp only [List.getElem_map, List.getElem_range]
    apply List.ext_getElem
    · simp
    · intro b h3 h4
      have hb : b < pd.cols.length := by simpa using h3
      simp only [List.getElem_map, List.getElem_range]
      rw [cov_pair_eq_spec log pd a b ha hb hwf hn]

lemma quad_form_eq_spec (m : List (List ℚ)) (w : List ℚ) (n : ℕ)
    (hm : m.length = n) (hrow : ∀ r ∈ m, r.length = n) (hw : w.length = n) :
    quad_form m w = spec_quad m w n := by
  unfold quad_form spec_quad
  rw [dotQ_eq_range w (m.map fun row => dotQ row w) (by simp [hm, hw])]
  rw [hw]
  apply congrArg List.sum
  apply List.map_congr_left
  intro a ha
  rw [List.mem_range] at ha
  have ham : a < m.length := by omega
  rw [getD_map_of_lt _ _ _ _ ham]
  congr 1
  rw [dotQ_eq_range (m[a]) w
    (by rw [hw, hrow (m[a]) (m.getElem_mem ham)])]
  rw [hrow (m[a]) (m.getElem_mem ham)]
  apply congrArg List.sum
  apply List.map_congr_left
  intro b hb
  rw [getD_of_lt m a [] ham]

/-- C2 (amended): the annualized covariance matrix the simulation uses is
the SAMPLE covariance (pandas default `ddof = 1`, denominator `N − 1`) of
the daily log-return series, multiplied by 252, and every recorded risk is
`sqrt(wᵀ · covarianceMatrix · w)` for the recorded weight vector `w`. -/
theorem risk_eq_sample_cov_formula (log sqrt : ℚ → ℚ) (mt : ℕ → ℕ → ℚ)
    (o : PortfolioOptimizer) (rng : NpRng) (pd : PriceData) (res : SimResult)
    (o2 : PortfolioOptimizer) (rng2 : NpRng) (i : ℕ)
    (hpd : o.price_data = some pd) (hwf : pd.Wf) (hn : 2 ≤ pd.nrows)
    (hrun : run_simulation log sqrt mt o rng = (.ok res, o2, rng2))
    (hi : i < o.num_portfolios) :
    cov_matrix log pd = spec_cov_matrix log pd 1 ∧
      res.risk.getD i 0 =
        sqrt (spec_quad (spec_cov_matrix log pd 1) (res.weights.getD i [])
          pd.cols.length) := by
  obtain ⟨hres, -, -⟩ :=
    run_simulation_ok log sqrt mt o rng pd res o2 rng2 hpd hrun
  subst hres
  refine ⟨cov_matrix_eq_spec log pd hwf hn, ?_⟩
  simp only [sim_table]
  rw [getD_map_range _ _ _ _ hi, getD_map_range _ _ _ _ hi]
  unfold port_sd
  rw [← cov_matrix_eq_spec log pd hwf hn]
  congr 1
  apply quad_form_eq_spec
  · simp [cov_matrix]
  · intro r hr
    simp only [cov_matrix, List.mem_map] at hr
    obtain ⟨x, -, rfl⟩ := hr
    simp
  · exact length_port_wts mt pd.cols.length i

/-- Witness for the amended C2 at a concrete two-asset, three-date frame. -/
theorem risk_eq_sample_cov_formula_witness :
    cov_matrix (fun x => x) ⟨[[1, 2, 6], [1, 3, 12]]⟩ =
        spec_cov_matrix (fun x => x) ⟨[[1, 2, 6], [1, 3, 12]]⟩ 1 ∧
      (sim_table (fun x => x) (fun x => x) (fun _ _ => (1 : ℚ)/2)
          ⟨[[1, 2, 6], [1, 3, 12]]⟩ 1 0).risk.getD 0 0 =
        (fun x => x)
          (spec_quad (spec_cov_matrix (fun x => x) ⟨[[1, 2, 6], [1, 3, 12]]⟩ 1)
            ((sim_table (fun x => x) (fun x => x) (fun _ _ => (1 : ℚ)/2)
              ⟨[[1, 2, 6], [1, 3, 12]]⟩ 1 0).weights.getD 0 []) 2) :=
  risk_eq_sample_cov_formula (fun x => x) (fun x => x) (fun _ _ => (1 : ℚ)/2)
    ⟨some ⟨[[1, 2, 6], [1, 3, 12]]⟩, 1, 0, none⟩ ⟨0, 0⟩
    ⟨[[1, 2, 6], [1, 3, 12]]⟩ _ _ _ 0
    rfl (by decide) (by decide) rfl (by decide)

/-- Counterexample to C2 as stated: with `np.log` and `np.sqrt` read as the
identity (price ratios as returns) and a constant uniform stream, the
simulated portfolio of the frame `[[1,2,6],[1,3,12]]` has weights
`[1/2, 1/2]` but its recorded risk is NOT `sqrt(wᵀ·C·w)` for the
*population* (ddof = 0) annualized covariance matrix `C`: pandas
`DataFrame.cov` divides by `N − 1`, not `N`. -/
theorem risk_pop_cov_counterexample :
    (Except.map (fun r => SimResult.weights r |>.getD 0 [])
        (run_simulation (fun x => x) (fun x => x) (fun _ _ => (1 : ℚ)/2)
          ⟨some ⟨[[1, 2, 6], [1, 3, 12]]⟩, 1, 0, none⟩ ⟨0, 0⟩).1 =
      Except.ok [1/2, 1/2]) ∧
    (Except.map (fun r => SimResult.risk r |>.getD 0 0)
        (run_simulation (fun x => x) (fun x => x) (fun _ _ => (1 : ℚ)/2)
          ⟨some ⟨[[1, 2, 6], [1, 3, 12]]⟩, 1, 0, none⟩ ⟨0, 0⟩).1 ≠
      Except.ok
        (spec_quad (spec_cov_matrix (fun x => x) ⟨[[1, 2, 6], [1, 3, 12]]⟩ 0)
          [1/2, 1/2] 2)) := by
  constructor
  · norm_num [run_simulation, sim_table, PriceData.isEmptyDf, port_wts,
      normalize, draws, List.range_succ, Except.map, List.getD_cons_zero]
  · norm_num [run_simulation, sim_table, PriceData.isEmptyDf, port_sd,
      port_wts, normalize, draws, quad_form, cov_matrix, cov_pair, dotQ,
      meanQ, log_ret_col, ret_means, spec_quad, spec_cov_matrix,
      spec_cov_ddof, spec_ret_series, PriceData.nrows, List.range_succ,
      Except.map, List.getD_cons_zero]

/-- C3: for every row of the result table, the Sharpe ratio is
`(return − riskFreeRate) / risk` when `risk > 0` and exactly `0`
otherwise; in particular a zero-risk row has Sharpe exactly `0`, and the
division is only ever performed under the `risk > 0` guard. -/
theorem sharpe_guarded_formula (log sqrt : ℚ → ℚ) (mt : ℕ → ℕ → ℚ)
    (o : PortfolioOptimizer) (rng : NpRng) (pd : PriceData) (res : SimResult)
    (o2 : PortfolioOptimizer) (rng2 : NpRng) (i : ℕ)
    (hpd : o.price_data = some pd)
    (hrun : run_simulation log sqrt mt o rng = (.ok res, o2, rng2))
    (hi : i < o.num_portfolios) :
    res.sharpe.getD i 0 =
      (if res.risk.getD i 0 > 0
        then (res.returns.getD i 0 - o.risk_free_rate) / res.risk.getD i 0
        else 0) ∧
    (res.risk.getD i 0 = 0 → res.sharpe.getD i 0 = 0) := by
  obtain ⟨hres, -, -⟩ :=
    run_simulation_ok log sqrt mt o rng pd res o2 rng2 hpd hrun
  subst hres
  simp only [sim_table]
  rw [getD_map_range _ _ _ _ hi, getD_map_range _ _ _ _ hi,
    getD_map_range _ _ _ _ hi]
  constructor
  · rfl
  · intro h
    simp [sharpe_of, h]

/-- Witness for C3 at a concrete two-asset, two-date frame. -/
theorem sharpe_guarded_formula_witness :
    (sim_table (fun x => x) (fun x => x) (fun _ _ => (1 : ℚ)/2)
        ⟨[[1, 2], [1, 3]]⟩ 1 0).sharpe.getD 0 0 =
      (if (sim_table (fun x => x) (fun x => x) (fun _ _ => (1 : ℚ)/2)
            ⟨[[1, 2], [1, 3]]⟩ 1 0).risk.getD 0 0 > 0
        then ((sim_table (fun x => x) (fun x => x) (fun _ _ => (1 : ℚ)/2)
            ⟨[[1, 2], [1, 3]]⟩ 1 0).returns.getD 0 0 - 0) /
          (sim_table (fun x => x) (fun x => x) (fun _ _ => (1 : ℚ)/2)
            ⟨[[1, 2], [1, 3]]⟩ 1 0).risk.getD 0 0
        else 0) ∧
    ((sim_table (fun x => x) (fun x => x) (fun _ _ => (1 : ℚ)/2)
        ⟨[[1, 2], [1, 3]]⟩ 1 0).risk.getD 0 0 = 0 →
      (sim_table (fun x => x) (fun x => x) (fun _ _ => (1 : ℚ)/2)
        ⟨[[1, 2], [1, 3]]⟩ 1 0).sharpe.getD 0 0 = 0) :=
  sharpe_guarded_formula (fun x => x) (fun x => x) (fun _ _ => (1 : ℚ)/2)
    ⟨some ⟨[[1, 2], [1, 3]]⟩, 1, 0, none⟩ ⟨0, 0⟩ ⟨[[1, 2], [1, 3]]⟩ _ _ _ 0
    rfl rfl (by decide)

/-- C4 (amended): every sampled weight vector is the vector of `n` uniform
draws in `[0, 1)` divided by their sum, so PROVIDED the draws of the
portfolio do not all equal zero (their sum is positive), all its weight
entries are ≥ 0 and they sum to exactly 1.  (The all-zero draw, a possible
realization of `np.random.uniform(size=n)`, makes the normalization divide
by zero instead.) -/
theorem weights_simplex (log sqrt : ℚ → ℚ) (mt : ℕ → ℕ → ℚ)
    (o : PortfolioOptimizer) (rng : NpRng) (pd : PriceData) (res : SimResult)
    (o2 : PortfolioOptimizer) (rng2 : NpRng) (i : ℕ)
    (hpd : o.price_data = some pd)
    (hrun : run_simulation log sqrt mt o rng = (.ok res, o2, rng2))
    (hi : i < o.num_portfolios)
    (hpos : ∀ k, 0 ≤ mt 42 k)
    (hsum : 0 < (draws mt pd.cols.length i).sum) :
    (∀ x ∈ res.weights.getD i [], 0 ≤ x) ∧
      (res.weights.getD i []).sum = 1 := by
  obtain ⟨hres, -, -⟩ :=
    run_simulation_ok log sqrt mt o rng pd res o2 rng2 hpd hrun
  subst hres
  simp only [sim_table]
  rw [getD_map_range _ _ _ _ hi]
  unfold port_wts normalize
  have hdivsum : ∀ (l : List ℚ) (s : ℚ),
      (l.map fun x => x / s).sum = l.sum / s := by
    intro l s
    simp only [div_eq_mul_inv]
    rw [List.sum_map_mul_right l (fun b => b) s⁻¹]
    simp
  constructor
  · intro x hx
    simp only [List.mem_map] at hx
    obtain ⟨u, hu, rfl⟩ := hx
    apply div_nonneg
    · simp only [draws, List.mem_map] at hu
      obtain ⟨j, -, rfl⟩ := hu
      exact hpos _
    · exact le_of_lt hsum
  · rw [hdivsum, div_self (ne_of_gt hsum)]

/-- Witness for the amended C4 at a concrete frame and a positive constant
stream. -/
theorem weights_simplex_witness :
    (∀ x ∈ (sim_table (fun x => x) (fun x => x) (fun _ _ => (1 : ℚ)/2)
        ⟨[[1, 2], [1, 3]]⟩ 1 0).weights.getD 0 [], 0 ≤ x) ∧
      ((sim_table (fun x => x) (fun x => x) (fun _ _ => (1 : ℚ)/2)
        ⟨[[1, 2], [1, 3]]⟩ 1 0).weights.getD 0 []).sum = 1 :=
  weights_simplex (fun x => x) (fun x => x) (fun _ _ => (1 : ℚ)/2)
    ⟨some ⟨[[1, 2], [1, 3]]⟩, 1, 0, none⟩ ⟨0, 0⟩ ⟨[[1, 2], [1, 3]]⟩ _ _ _ 0
    rfl rfl (by decide) (fun k => by norm_num)
    (by norm_num [draws, List.range_succ])

/-- Counterexample to C4 as stated: with the all-zero draw (each value `0`
lies in `[0, 1)`), the normalized weight vector of the single simulated
portfolio sums to `0`, not `1`, and is not within tolerance `1e-9` of 1:
`np.random.uniform` can return zeros, and the normalization by the sum is
unguarded. -/
theorem weights_simplex_counterexample :
    (Except.map (fun r => (SimResult.weights r |>.getD 0 []).sum)
        (run_simulation (fun x => x) (fun x => x) (fun _ _ => (0 : ℚ))
          ⟨some ⟨[[1, 2], [1, 3]]⟩, 1, 0, none⟩ ⟨0, 0⟩).1 =
      Except.ok 0) ∧
    ¬ |(0 : ℚ) - 1| ≤ 1/1000000000 := by
  constructor
  · norm_num [run_simulation, sim_table, PriceData.isEmptyDf, port_wts,
      normalize, draws, List.range_succ, Except.map, List.getD_cons_zero]
  · norm_num

/-- C5: on a non-empty result table, `get_optimal_portfolios` returns the
row of maximum Sharpe ratio, the row of minimum risk and the row of
maximum return; each returned portfolio is exactly a row of the table
(all fields equal), and on exact ties on a selection key the first row in
population order is chosen (pandas `idxmax`/`idxmin` return the first
occurrence). -/
theorem optimal_selection (o : PortfolioOptimizer) (res : SimResult)
    (hres : o.results = some res)
    (hlen1 : res.risk.length = res.returns.length)
    (hlen2 : res.sharpe.length = res.returns.length)
    (hne : res.returns ≠ []) :
    ∃ iS iR iM : ℕ,
      get_optimal_portfolios o =
        (.ok ⟨res.row iS, res.row iR, res.row iM⟩, o) ∧
      res.row iS ∈ res.rows ∧ res.row iR ∈ res.rows ∧ res.row iM ∈ res.rows ∧
      (∀ j, j < res.returns.length →
        res.sharpe.getD j 0 ≤ res.sharpe.getD iS 0) ∧
      (∀ j, j < res.returns.length →
        res.sharpe.getD j 0 = res.sharpe.getD iS 0 → iS ≤ j) ∧
      (∀ j, j < res.returns.length →
        res.risk.getD iR 0 ≤ res.risk.getD j 0) ∧
      (∀ j, j < res.returns.length →
        res.risk.getD j 0 = res.risk.getD iR 0 → iR ≤ j) ∧
      (∀ j, j < res.returns.length →
        res.returns.getD j 0 ≤ res.returns.getD iM 0) ∧
      (∀ j, j < res.returns.length →
        res.returns.getD j 0 = res.returns.getD iM 0 → iM ≤ j) := by
  have hpos : 0 < res.returns.length := List.length_pos.mpr hne
  have hSne : res.sharpe ≠ [] := by
    intro h
    rw [h] at hlen2
    simp at hlen2
    omega
  have hRne : res.risk ≠ [] := by
    intro h
    rw [h] at hlen1
    simp at hlen1
    omega
  have hiS : idxmaxQ res.sharpe < res.sharpe.length :=
    idxmaxQ_lt_length res.sharpe hSne
  have hiR : idxminQ res.risk < res.risk.length :=
    idxminQ_lt_length res.risk hRne
  have hiM : idxmaxQ res.returns < res.returns.length :=
    idxmaxQ_lt_length res.returns hne
  refine ⟨idxmaxQ res.sharpe, idxminQ res.risk, idxmaxQ res.returns,
    ?_, ?_, ?_, ?_, ?_, ?_, ?_, ?_, ?_, ?_⟩
  · unfold get_optimal_portfolios get_metrics_df
    rw [hres]
  · simp only [SimResult.rows, List.mem_map]
    exact ⟨idxmaxQ res.sharpe, List.mem_range.mpr (by omega), rfl⟩
  · simp only [SimResult.rows, List.mem_map]
    exact ⟨idxminQ res.risk, List.mem_range.mpr (by omega), rfl⟩
  · simp only [SimResult.rows, List.mem_map]
    exact ⟨idxmaxQ res.returns, List.mem_range.mpr (by omega), rfl⟩
  · intro j hj
    have hj2 : j < res.sharpe.length := by omega
    rw [getD_of_lt _ _ _ hj2, getD_of_lt _ _ _ hiS]
    exact idxmaxQ_ge res.sharpe j hj2 hiS
  · intro j hj he
    have hj2 : j < res.sharpe.length := by omega
    rw [getD_of_lt _ _ _ hj2, getD_of_lt _ _ _ hiS] at he
    exact idxmaxQ_first res.sharpe j hj2 hiS he
  · intro j hj
    have hj2 : j < res.risk.length := by omega
    rw [getD_of_lt _ _ _ hj2, getD_of_lt _ _ _ hiR]
    exact idxminQ_le res.risk j hj2 hiR
  · intro j hj he
    have hj2 : j < res.risk.length := by omega
    rw [getD_of_lt _ _ _ hj2, getD_of_lt _ _ _ hiR] at he
    exact idxminQ_first res.risk j hj2 hiR he
  · intro j hj
    rw [getD_of_lt _ _ _ hj, getD_of_lt _ _ _ hiM]
    exact idxmaxQ_ge res.returns j hj hiM
  · intro j hj he
    rw [getD_of_lt _ _ _ hj, getD_of_lt _ _ _ hiM] at he
    exact idxmaxQ_first res.returns j hj hiM he

/-- Witness for C5 on a concrete two-row result table. -/
theorem optimal_selection_witness :
    ∃ iS iR iM : ℕ,
      get_optimal_portfolios
          ⟨none, 2, 0,
            some ⟨[[1], [1]], [1, 2], [4, 3], [5, 6]⟩⟩ =
        (.ok ⟨SimResult.row ⟨[[1], [1]], [1, 2], [4, 3], [5, 6]⟩ iS,
              SimResult.row ⟨[[1], [1]], [1, 2], [4, 3], [5, 6]⟩ iR,
              SimResult.row ⟨[[1], [1]], [1, 2], [4, 3], [5, 6]⟩ iM⟩,
          ⟨none, 2, 0, some ⟨[[1], [1]], [1, 2], [4, 3], [5, 6]⟩⟩) ∧
      SimResult.row ⟨[[1], [1]], [1, 2], [4, 3], [5, 6]⟩ iS ∈
        SimResult.rows ⟨[[1], [1]], [1, 2], [4, 3], [5, 6]⟩ ∧
      SimResult.row ⟨[[1], [1]], [1, 2], [4, 3], [5, 6]⟩ iR ∈
        SimResult.rows ⟨[[1], [1]], [1, 2], [4, 3], [5, 6]⟩ ∧
      SimResult.row ⟨[[1], [1]], [1, 2], [4, 3], [5, 6]⟩ iM ∈
        SimResult.rows ⟨[[1], [1]], [1, 2], [4, 3], [5, 6]⟩ ∧
      (∀ j, j < 2 →
        List.getD ([5, 6] : List ℚ) j 0 ≤ List.getD ([5, 6] : List ℚ) iS 0) ∧
      (∀ j, j < 2 →
        List.getD ([5, 6] : List ℚ) j 0 = List.getD ([5, 6] : List ℚ) iS 0 →
          iS ≤ j) ∧
      (∀ j, j < 2 →
        List.getD ([4, 3] : List ℚ) iR 0 ≤ List.getD ([4, 3] : List ℚ) j 0) ∧
      (∀ j, j < 2 →
        List.getD ([4, 3] : List ℚ) j 0 = List.getD ([4, 3] : List ℚ) iR 0 →
          iR ≤ j) ∧
      (∀ j, j < 2 →
        List.getD ([1, 2] : List ℚ) j 0 ≤ List.getD ([1, 2] : List ℚ) iM 0) ∧
      (∀ j, j < 2 →
        List.getD ([1, 2] : List ℚ) j 0 = List.getD ([1, 2] : List ℚ) iM 0 →
          iM ≤ j) := by
  simpa using optimal_selection
    ⟨none, 2, 0, some ⟨[[1], [1]], [1, 2], [4, 3], [5, 6]⟩⟩
    ⟨[[1], [1]], [1, 2], [4, 3], [5, 6]⟩ rfl rfl rfl (by simp)

/-- C6 (amended): `run_simulation` takes no seed argument; it reseeds the
global NumPy generator with the hardcoded constant 42 at line 88 before
any draw, so any two runs with identical price data, `num_portfolios` and
`risk_free_rate` produce identical results and identical final instance
state regardless of the incoming global RNG state, and every successful
run returns exactly the seeded simulation at the fixed seed 42. -/
theorem determinism_fixed_seed (log sqrt : ℚ → ℚ) (mt : ℕ → ℕ → ℚ)
    (o : PortfolioOptimizer) (rng1 rng2 : NpRng) :
    (run_simulation log sqrt mt o rng1).1 =
        (run_simulation log sqrt mt o rng2).1 ∧
      (run_simulation log sqrt mt o rng1).2.1 =
        (run_simulation log sqrt mt o rng2).2.1 ∧
      (∀ pd, o.price_data = some pd → pd.isEmptyDf = false →
        (run_simulation log sqrt mt o rng1).1 =
          .ok (spec_simulate log sqrt mt pd o.num_portfolios
            o.risk_free_rate 42)) := by
  refine ⟨?_, ?_, ?_⟩
  · unfold run_simulation
    cases o.price_data with
    | none => rfl
    | some pd =>
      dsimp only
      by_cases h : pd.isEmptyDf
      · rw [if_pos h, if_pos h]
      · rw [if_neg h, if_neg h]
  · unfold run_simulation
    cases o.price_data with
    | none => rfl
    | some pd =>
      dsimp only
      by_cases h : pd.isEmptyDf
      · rw [if_pos h, if_pos h]
      · rw [if_neg h, if_neg h]
  · intro pd hpd hne
    unfold run_simulation
    rw [hpd]
    dsimp only
    rw [if_neg (by rw [hne]; simp)]
    rfl

/-- Witness for the amended C6 on a concrete frame and two distinct
incoming RNG states. -/
theorem determinism_fixed_seed_witness :
    ((run_simulation (fun x => x) (fun x => x) (fun _ _ => (1 : ℚ)/2)
        ⟨some ⟨[[1, 2], [1, 3]]⟩, 1, 0, none⟩ ⟨7, 3⟩).1 =
      (run_simulation (fun x => x) (fun x => x) (fun _ _ => (1 : ℚ)/2)
        ⟨some ⟨[[1, 2], [1, 3]]⟩, 1, 0, none⟩ ⟨11, 100⟩).1) ∧
    ((run_simulation (fun x => x) (fun x => x) (fun _ _ => (1 : ℚ)/2)
        ⟨some ⟨[[1, 2], [1, 3]]⟩, 1, 0, none⟩ ⟨7, 3⟩).1 =
      .ok (spec_simulate (fun x => x) (fun x => x) (fun _ _ => (1 : ℚ)/2)
        ⟨[[1, 2], [1, 3]]⟩ 1 0 42)) :=
  ⟨(determinism_fixed_seed (fun x => x) (fun x => x) (fun _ _ => (1 : ℚ)/2)
      ⟨some ⟨[[1, 2], [1, 3]]⟩, 1, 0, none⟩ ⟨7, 3⟩ ⟨11, 100⟩).1,
    (determinism_fixed_seed (fun x => x) (fun x => x) (fun _ _ => (1 : ℚ)/2)
      ⟨some ⟨[[1, 2], [1, 3]]⟩, 1, 0, none⟩ ⟨7, 3⟩ ⟨11, 100⟩).2.2
      ⟨[[1, 2], [1, 3]]⟩ rfl rfl⟩

/-- Counterexample to C6 as stated: the code accepts no seed parameter.
Reading the claim as `run_simulation` implementing the spec's
`simulate(priceMatrix, numPortfolios, riskFreeRate, seed)`, it fails at
seed 7: with a generator whose seed-42 stream is `1/2, 1/4, ...` and whose
other streams are constant `1/2`, the code's weights are `[2/3, 1/3]`
(always the hardcoded seed 42) while the seeded simulation at seed 7
yields `[1/2, 1/2]`. -/
theorem seed_parameter_counterexample :
    Except.map SimResult.weights
        (run_simulation (fun x => x) (fun x => x)
          (fun s p => if s = 42 then (if p = 0 then (1 : ℚ)/2 else 1/4)
            else 1/2)
          ⟨some ⟨[[1, 2], [1, 3]]⟩, 1, 0, none⟩ ⟨0, 0⟩).1 ≠
      Except.ok
        (spec_simulate (fun x => x) (fun x => x)
          (fun s p => if s = 42 then (if p = 0 then (1 : ℚ)/2 else 1/4)
            else 1/2)
          ⟨[[1, 2], [1, 3]]⟩ 1 0 7).weights := by
  norm_num [run_simulation, sim_table, spec_simulate, PriceData.isEmptyDf,
    port_wts, normalize, draws, List.range_succ, Except.map]

/-- C7 (amended): the only input validation in `run_simulation` is the
check of line 78: it signals `PortfolioOptimizerError` exactly when the
price data is missing (`None`) or the frame is empty, and any non-empty
frame — including one with a single asset or a single date — is accepted
and fully processed. -/
theorem input_validation (log sqrt : ℚ → ℚ) (mt : ℕ → ℕ → ℚ)
    (o : PortfolioOptimizer) (rng : NpRng) :
    ((run_simulation log sqrt mt o rng).1 = .error .invalidPriceData ↔
      (o.price_data = none ∨
        ∃ pd, o.price_data = some pd ∧ pd.isEmptyDf = true)) ∧
    (∀ pd, o.price_data = some pd → pd.isEmptyDf = false →
      (run_simulation log sqrt mt o rng).1 =
        .ok (sim_table log sqrt mt pd o.num_portfolios o.risk_free_rate)) := by
  constructor
  · unfold run_simulation
    cases hp : o.price_data with
    | none => simp
    | some pd =>
      dsimp only
      by_cases h : pd.isEmptyDf
      · rw [if_pos h]
        simp [h]
      · rw [if_neg h]
        simp [h]
  · intro pd hpd hne
    unfold run_simulation
    rw [hpd]
    dsimp only
    rw [if_neg (by rw [hne]; simp)]

/-- Witness for the amended C7: the `None` case raises, a frame with a
single date (and two assets) is accepted. -/
theorem input_validation_witness :
    ((run_simulation (fun x => x) (fun x => x) (fun _ _ => (1 : ℚ)/2)
        ⟨none, 1, 0, none⟩ ⟨0, 0⟩).1 = .error .invalidPriceData ↔
      ((⟨none, 1, 0, none⟩ : PortfolioOptimizer).price_data = none ∨
        ∃ pd, (⟨none, 1, 0, none⟩ : PortfolioOptimizer).price_data = some pd ∧
          pd.isEmptyDf = true)) ∧
    (run_simulation (fun x => x) (fun x => x) (fun _ _ => (1 : ℚ)/2)
        ⟨some ⟨[[100], [200]]⟩, 1, 0, none⟩ ⟨0, 0⟩).1 =
      .ok (sim_table (fun x => x) (fun x => x) (fun _ _ => (1 : ℚ)/2)
        ⟨[[100], [200]]⟩ 1 0) :=
  ⟨(input_validation (fun x => x) (fun x => x) (fun _ _ => (1 : ℚ)/2)
      ⟨none, 1, 0, none⟩ ⟨0, 0⟩).1,
    (input_validation (fun x => x) (fun x => x) (fun _ _ => (1 : ℚ)/2)
      ⟨some ⟨[[100], [200]]⟩, 1, 0, none⟩ ⟨0, 0⟩).2
      ⟨[[100], [200]]⟩ rfl rfl⟩

/-- Counterexample to C7 as stated: a frame with a single data point per
asset (insufficient history) and a frame with a single asset are both
accepted — `run_simulation` returns a populated result instead of
signalling an error. -/
theorem insufficient_input_counterexample :
    (run_simulation (fun x => x) (fun x => x) (fun _ _ => (1 : ℚ)/2)
        ⟨some ⟨[[100], [200]]⟩, 1, 0, none⟩ ⟨0, 0⟩).1 =
      .ok (sim_table (fun x => x) (fun x => x) (fun _ _ => (1 : ℚ)/2)
        ⟨[[100], [200]]⟩ 1 0) ∧
    (run_simulation (fun x => x) (fun x => x) (fun _ _ => (1 : ℚ)/2)
        ⟨some ⟨[[5, 6, 7]]⟩, 1, 0, none⟩ ⟨0, 0⟩).1 =
      .ok (sim_table (fun x => x) (fun x => x) (fun _ _ => (1 : ℚ)/2)
        ⟨[[5, 6, 7]]⟩ 1 0) :=
  ⟨rfl, rfl⟩

/-- C8 (amended): `run_simulation` performs no validation of
`num_portfolios`; with `num_portfolios = 0` it completes without error and
returns an empty table, and for every run that passes the price-data check
all four result arrays have exactly `num_portfolios` entries. -/
theorem result_count (log sqrt : ℚ → ℚ) (mt : ℕ → ℕ → ℚ)
    (o : PortfolioOptimizer) (rng : NpRng) (pd : PriceData) (res : SimResult)
    (o2 : PortfolioOptimizer) (rng2 : NpRng)
    (hpd : o.price_data = some pd)
    (hrun : run_simulation log sqrt mt o rng = (.ok res, o2, rng2)) :
    res.weights.length = o.num_portfolios ∧
      res.returns.length = o.num_portfolios ∧
      res.risk.length = o.num_portfolios ∧
      res.sharpe.length = o.num_portfolios := by
  obtain ⟨hres, -, -⟩ :=
    run_simulation_ok log sqrt mt o rng pd res o2 rng2 hpd hrun
  subst hres
  simp [sim_table]

/-- Witness for the amended C8 at a concrete frame. -/
theorem result_count_witness :
    (sim_table (fun x => x) (fun x => x) (fun _ _ => (1 : ℚ)/2)
        ⟨[[1, 2], [1, 3]]⟩ 3 0).weights.length = 3 ∧
      (sim_table (fun x => x) (fun x => x) (fun _ _ => (1 : ℚ)/2)
        ⟨[[1, 2], [1, 3]]⟩ 3 0).returns.length = 3 ∧
      (sim_table (fun x => x) (fun x => x) (fun _ _ => (1 : ℚ)/2)
        ⟨[[1, 2], [1, 3]]⟩ 3 0).risk.length = 3 ∧
      (sim_table (fun x => x) (fun x => x) (fun _ _ => (1 : ℚ)/2)
        ⟨[[1, 2], [1, 3]]⟩ 3 0).sharpe.length = 3 :=
  result_count (fun x => x) (fun x => x) (fun _ _ => (1 : ℚ)/2)
    ⟨some ⟨[[1, 2], [1, 3]]⟩, 3, 0, none⟩ ⟨0, 0⟩ ⟨[[1, 2], [1, 3]]⟩ _ _ _
    rfl rfl

/-- Counterexample to C8 as stated: with `num_portfolios = 0` and a valid
two-asset frame, `run_simulation` does NOT signal an error before
sampling — it completes and returns the empty result table. -/
theorem zero_portfolios_counterexample :
    (run_simulation (fun x => x) (fun x => x) (fun _ _ => (1 : ℚ)/2)
        ⟨some ⟨[[1, 2], [1, 3]]⟩, 0, 0, none⟩ ⟨0, 0⟩).1 =
      .ok ⟨[], [], [], []⟩ :=
  rfl

/-- C9 (amended): the code contains no finiteness check and no
`ComputationError`: once past the single price-data check, the run always
completes and returns the computed table, whatever values the statistics
take.  (With the real float semantics, a two-date frame makes pandas'
`ddof = 1` covariance `0/0 = NaN`, which is stored in the risk column
silently.) -/
theorem no_finiteness_check (log sqrt : ℚ → ℚ) (mt : ℕ → ℕ → ℚ)
    (o : PortfolioOptimizer) (rng : NpRng) (pd : PriceData)
    (hpd : o.price_data = some pd) (hne : pd.isEmptyDf = false) :
    (run_simulation log sqrt mt o rng).1 =
      .ok (sim_table log sqrt mt pd o.num_portfolios o.risk_free_rate) := by
  unfold run_simulation
  rw [hpd]
  dsimp only
  rw [if_neg (by rw [hne]; simp)]

/-- Witness for the amended C9 at the two-date frame whose float
covariance is `0/0`. -/
theorem no_finiteness_check_witness :
    (run_simulation (fun x => x) (fun x => x) (fun _ _ => (1 : ℚ)/2)
        ⟨some ⟨[[1, 2], [1, 3]]⟩, 1, 0, none⟩ ⟨0, 0⟩).1 =
      .ok (sim_table (fun x => x) (fun x => x) (fun _ _ => (1 : ℚ)/2)
        ⟨[[1, 2], [1, 3]]⟩ 1 0) :=
  no_finiteness_check (fun x => x) (fun x => x) (fun _ _ => (1 : ℚ)/2)
    ⟨some ⟨[[1, 2], [1, 3]]⟩, 1, 0, none⟩ ⟨0, 0⟩ ⟨[[1, 2], [1, 3]]⟩ rfl rfl

/-- Counterexample to C9 as stated: at the valid 2-asset, 2-date frame
(≥ 2 assets, ≥ 2 dates, positive prices) the run completes and returns a
table — no error of any kind is signalled, although pandas computes the
`ddof = 1` covariance of a single observation as `0/0` (NaN) there. -/
theorem silent_nan_counterexample :
    (run_simulation (fun x => x) (fun x => x) (fun _ _ => (1 : ℚ)/3)
        ⟨some ⟨[[2, 4], [3, 9]]⟩, 2, 0, none⟩ ⟨0, 0⟩).1 =
      .ok (sim_table (fun x => x) (fun x => x) (fun _ _ => (1 : ℚ)/3)
        ⟨[[2, 4], [3, 9]]⟩ 2 0) :=
  rfl

/-- C10: on an optimizer whose simulation has not run (`results is None`),
`get_metrics_df`, `get_optimal_portfolios` and `get_visualization_data`
all raise `PortfolioOptimizerError` and leave the instance state
(`price_data`, `num_portfolios`, `risk_free_rate`, `results`)
unchanged. -/
theorem accessors_require_results (o : PortfolioOptimizer)
    (hres : o.results = none) :
    get_metrics_df o = (.error .simulationNotRun, o) ∧
      get_optimal_portfolios o = (.error .simulationNotRun, o) ∧
      get_visualization_data o = (.error .simulationNotRun, o) := by
  unfold get_visualization_data get_optimal_portfolios get_metrics_df
  rw [hres]
  exact ⟨rfl, rfl, rfl⟩

/-- Witness for C10 on a freshly constructed optimizer. -/
theorem accessors_require_results_witness :
    get_metrics_df ⟨some ⟨[[1, 2], [1, 3]]⟩, 5000, 0, none⟩ =
        (.error .simulationNotRun, ⟨some ⟨[[1, 2], [1, 3]]⟩, 5000, 0, none⟩) ∧
      get_optimal_portfolios ⟨some ⟨[[1, 2], [1, 3]]⟩, 5000, 0, none⟩ =
        (.error .simulationNotRun, ⟨some ⟨[[1, 2], [1, 3]]⟩, 5000, 0, none⟩) ∧
      get_visualization_data ⟨some ⟨[[1, 2], [1, 3]]⟩, 5000, 0, none⟩ =
        (.error .simulationNotRun, ⟨some ⟨[[1, 2], [1, 3]]⟩, 5000, 0, none⟩) :=
  accessors_require_results ⟨some ⟨[[1, 2], [1, 3]]⟩, 5000, 0, none⟩ rfl

end FlaskBokehMPT
